import Mathlib

/-!
# adeypay-react-sdk — verification of the approval-reconciliation core

Shallow embedding of the two source components:

* `src/react/PayButton.tsx` — a payment session: creation effect (popup
  open + `onCreated`), cross-window message listener, polling status
  effect, all deduplicated through a shared set of handled keys.
* `src/components/WithdrawButton.tsx` — the payout variant: synchronous
  validation, idempotency-key generation, remote create call, identifier
  extraction, `onCreated`/`onApproved`/`onError` callbacks.

JavaScript runtime values that matter to the control flow (numbers with
`NaN`/infinities, `undefined`, truthiness) are modelled explicitly.
-/

namespace AdeyPay

/-- Model of a JavaScript number: `NaN`, the two infinities, or a finite
value (every finite double is rational). -/
inductive JsNum
  | nan
  | posInf
  | negInf
  | fin (q : ℚ)
deriving DecidableEq

/-- JS `isNaN(x)` for a number `x`. -/
def JsNum.isNaN : JsNum → Bool
  | .nan => true
  | _ => false

/-- JS `<` on numbers: any comparison with `NaN` is false. -/
def JsNum.lt : JsNum → JsNum → Bool
  | .nan, _ => false
  | _, .nan => false
  | .negInf, .negInf => false
  | .negInf, _ => true
  | _, .negInf => false
  | .posInf, _ => false
  | .fin _, .posInf => true
  | .fin a, .fin b => decide (a < b)

/-- JS `<=` on numbers: any comparison with `NaN` is false. -/
def JsNum.le : JsNum → JsNum → Bool
  | .nan, _ => false
  | _, .nan => false
  | .negInf, _ => true
  | _, .negInf => false
  | _, .posInf => true
  | .posInf, .fin _ => false
  | .fin a, .fin b => decide (a ≤ b)

/-- Model of a JavaScript value as far as the SDK's checks observe it:
`undefined`/`null`, a number, or a string. -/
inductive JsVal
  | undef
  | num (n : JsNum)
  | str (s : String)
deriving DecidableEq

/-- JS truthiness: `undefined`, `null`, `NaN`, `0` and `""` are falsy. -/
def JsVal.truthy : JsVal → Bool
  | .undef => false
  | .num .nan => false
  | .num (.fin q) => decide (q ≠ 0)
  | .num _ => true
  | .str s => decide (s ≠ "")

end AdeyPay

namespace AdeyPay

/-! ## WithdrawButton (`src/components/WithdrawButton.tsx`) -/

/-- The object produced by `getPayload()` or assembled from the
`amount`/`toEmail` props (`WithdrawPayload`); fields may hold arbitrary
runtime values, which the handler checks defensively. -/
structure WPayload where
  amount : JsVal
  toEmail : JsVal
deriving DecidableEq

/-- The distinct `Error` values the withdraw flow reports through
`onError`.  Each constructor stands for the corresponding message string
in the source: `missingPayload` ↦ "Withdrawal payload not provided…",
`invalidAmount` ↦ "Invalid withdrawal amount.", `belowMinimum` ↦
"Minimum withdrawal is …", `aboveMaximum` ↦ "Maximum withdrawal is …",
`missingRecipient` ↦ "Recipient email required.", `noIdentifier` ↦
"No payout id returned from server.", `createFailed` ↦ a rejected
create-call promise. -/
inductive WErr
  | missingPayload
  | invalidAmount
  | belowMinimum
  | aboveMaximum
  | missingRecipient
  | noIdentifier
  | createFailed (msg : String)
deriving DecidableEq

/-- Result of the synchronous validation prefix of `handleClick`:
either the first failing rule, or the validated `amount`/`toEmail`. -/
inductive WResult
  | rejected (e : WErr)
  | ok (amount : JsNum) (toEmail : String)
deriving DecidableEq

/-- `typeof getPayload === "function" ? getPayload() : undefined`
followed by the `??`-fallback to the props object.  The outer `Option`
is "was a getter supplied", the inner one is "did it return a payload
(vs `null`/`undefined`)".  The props object is built only when
`amountProp !== undefined || toEmailProp` (JS truthiness on the email
prop). -/
def resolvePayload (gp : Option (Option WPayload)) (aProp : Option JsNum)
    (eProp : Option String) : Option WPayload :=
  match gp with
  | some (some p) => some p
  | _ =>
    if aProp.isSome || (match eProp with | some s => decide (s ≠ "") | none => false) then
      some { amount := (match aProp with | some n => JsVal.num n | none => JsVal.undef),
             toEmail := (match eProp with | some s => JsVal.str s | none => JsVal.undef) }
    else
      none

/-- The validation prefix of `WithdrawButton.handleClick`, lines 76–120:
payload resolution, then the four early-return checks, in source
order. -/
def validateWithdraw (gp : Option (Option WPayload)) (aProp : Option JsNum)
    (eProp : Option String) (minA : JsNum) (maxA : Option JsNum) : WResult :=
  match resolvePayload gp aProp eProp with
  | none => .rejected .missingPayload
  | some payload =>
    match payload.amount with
    | JsVal.num a =>
      if a.isNaN || a.le (JsNum.fin 0) then .rejected .invalidAmount
      else if a.lt minA then .rejected .belowMinimum
      else if (match maxA with | some mx => mx.lt a | none => false) then .rejected .aboveMaximum
      else
        match payload.toEmail with
        | JsVal.str e => if e = "" then .rejected .missingRecipient else .ok a e
        | _ => .rejected .missingRecipient
    | _ => .rejected .invalidAmount

/-- Validation as the spec's ordered rule list states it, with rule 2
amended to what the code checks: the amount must be a number, not
`NaN`, and greater than zero — finiteness is NOT required.  Rules in
spec form: (1) payload resolvable else `MissingPayload`; (2) amount a
non-`NaN` number `> 0` else `InvalidAmount`; (3) `amount >= minAmount`
else `BelowMinimum`; (4) if `maxAmount` configured, `amount <=
maxAmount` else `AboveMaximum`; (5) recipient a non-empty string else
`MissingRecipient`; first failure wins. -/
def specValidate (payload : Option WPayload) (minA : JsNum) (maxA : Option JsNum) : WResult :=
  match payload with
  | none => .rejected .missingPayload
  | some p =>
    match p.amount with
    | JsVal.num a =>
      if a.isNaN || !(JsNum.lt (JsNum.fin 0) a) then .rejected .invalidAmount
      else if !(JsNum.le minA a) then .rejected .belowMinimum
      else if (match maxA with | some mx => !(JsNum.le a mx) | none => false) then
        .rejected .aboveMaximum
      else
        match p.toEmail with
        | JsVal.str e => if e = "" then .rejected .missingRecipient else .ok a e
        | _ => .rejected .missingRecipient
    | _ => .rejected .invalidAmount

/-- The create-call response, `{ payoutId?, id? }`; the whole response
may also be `null`/`undefined` (`Option`). -/
structure CreateRes where
  payoutId : JsVal
  id : JsVal
deriving DecidableEq

/-- `(res && res.payoutId) || (res && res.id) || ""` — identifier
extraction from the create response, accepting either field name, with
`""` as the falsy fallback. -/
def extractId (res : Option CreateRes) : JsVal :=
  match res with
  | none => JsVal.str ""
  | some r =>
    if r.payoutId.truthy then r.payoutId
    else if r.id.truthy then r.id
    else JsVal.str ""

/-! ### Idempotency key (`ui-${Date.now()}-${Math.random()…}`) -/

/-- The decimal digit character for `d` (`0 ↦ '0'`, …): model of how a
number interpolates into a template literal. -/
def digitChar (d : Nat) : Char := Char.ofNat (48 + d)

/-- Fuel-indexed decimal conversion; with `n < fuel` the fuel never
runs out. -/
def decDigitsCore : Nat → Nat → List Char
  | 0, _ => []
  | fuel + 1, n =>
    if n < 10 then [digitChar n]
    else decDigitsCore fuel (n / 10) ++ [digitChar (n % 10)]

/-- The decimal digit string of a natural number, most significant
first: model of `${Date.now()}`. -/
def decDigits (n : Nat) : List Char := decDigitsCore (n + 1) n

/-- `${n}` for a natural number `n`. -/
def decRepr (n : Nat) : String := String.mk (decDigits n)

/-- The idempotency key
`` `ui-${Date.now()}-${Math.random().toString(36).slice(2, 8)}` ``,
from the current time `now` and the sliced random component `rand`. -/
def genKey (now : Nat) (rand : String) : String :=
  "ui-" ++ decRepr now ++ "-" ++ rand

/-- Decimal value of a digit string (proof helper used to show the
decimal representation is injective). -/
def digitsVal (l : List Char) : Nat :=
  l.foldl (fun acc c => 10 * acc + (c.toNat - 48)) 0

/-! ### The full click handler -/

/-- Observable actions of one `WithdrawButton.handleClick` run, in
order: `busy b` is `setLoading(b)`, `call` is the create request put on
the wire, `created`/`approved` are the parent callbacks, `err` is
`onError`. -/
inductive WOut
  | busy (b : Bool)
  | call (amount : JsNum) (toEmail : String) (idemKey : String)
  | created (id : JsVal) (amount : JsNum)
  | approved (id : JsVal) (amount : JsNum)
  | err (e : WErr)
deriving DecidableEq

/-- `WithdrawButton.handleClick` as a trace of its observable actions.
`loading`/`disabled` are the entry guards; `createOutcome` is how the
awaited create call resolves (`.error` = rejected promise).  Validation
failures return before `setLoading(true)`; every path that sets the
flag clears it in the `finally`. -/
def withdrawClick (loading disabled : Bool) (gp : Option (Option WPayload))
    (aProp : Option JsNum) (eProp : Option String) (minA : JsNum) (maxA : Option JsNum)
    (now : Nat) (rand : String)
    (createOutcome : Except String (Option CreateRes)) : List WOut :=
  if loading || disabled then []
  else
    match validateWithdraw gp aProp eProp minA maxA with
    | .rejected e => [WOut.err e]
    | .ok a email =>
      WOut.busy true ::
      match createOutcome with
      | .error msg =>
        [WOut.call a email (genKey now rand), WOut.err (.createFailed msg), WOut.busy false]
      | .ok res =>
        if (extractId res).truthy then
          [WOut.call a email (genKey now rand), WOut.created (extractId res) a,
           WOut.approved (extractId res) a, WOut.busy false]
        else
          [WOut.call a email (genKey now rand), WOut.err .noIdentifier, WOut.busy false]

/-- The loading flag after replaying the `setLoading` actions of a
trace over an initially-false flag. -/
def wFinalBusy (t : List WOut) : Bool :=
  t.foldl (fun b o => match o with | WOut.busy v => v | _ => b) false

/-! ## PayButton (`src/react/PayButton.tsx`) -/

/-- The popup window handle held in `popupRef`; `closed` is the
`Window.closed` flag consulted before `close()`. -/
structure Popup where
  closed : Bool
deriving DecidableEq

/-- The mutable component state the session logic reads and writes:
`paymentId`/`popup` are `usePayment().paymentId` and
`popupRef.current`; `handled` is the `handledRef` set of dedup keys
(creation keys are the raw id, terminal keys are `"status-" ++ id`). -/
structure PayState where
  paymentId : Option String
  handled : List String
  popup : Option Popup
deriving DecidableEq

/-- State before any payment was created. -/
def initState : PayState := { paymentId := none, handled := [], popup := none }

/-- The distinct `Error` values `PayButton` reports through `onError`:
`popupBlocked` ↦ "Popup blocked. Please allow popups for this site.",
`paymentFailed` ↦ "Payment failed" (polling channel),
`paymentFailedPopup` ↦ "Payment failed (popup)" (message channel),
`invalidAmount` ↦ "Invalid amount", `apiKeyRequired` ↦ "API key is
required", `startFailed` ↦ a rejected `startPayment` promise,
`openThrew` ↦ the error thrown by `window.open`/`focus` itself,
forwarded as-is by the creation effect's catch. -/
inductive PayErr
  | invalidAmount
  | apiKeyRequired
  | startFailed (msg : String)
  | popupBlocked
  | openThrew (msg : String)
  | paymentFailed
  | paymentFailedPopup
deriving DecidableEq

/-- Observable session actions, in emission order: the `onCreated` /
`onApproved` / `onError` callbacks and a `close()` request on the popup.
`approved` carries `incomingPaymentId ?? paymentId`, which is absent
when neither side supplied an id. -/
inductive Out
  | created (id : String)
  | approved (id : Option String)
  | error (e : PayErr)
  | closePopup
deriving DecidableEq

/-- An incoming `MessageEvent`: its `origin` and the `type` /
`paymentId` / `status` fields of `event.data` (absent or non-matching
fields modelled as `none`). -/
structure Msg where
  origin : String
  type : Option String
  paymentId : Option String
  status : Option String
deriving DecidableEq

/-- The origin guard
`if (allowedOrigin && event.origin !== allowedOrigin) return` —
skipped entirely when no allowed origin could be derived. -/
def originOk (allowedOrigin : Option String) (m : Msg) : Bool :=
  match allowedOrigin with
  | some o => m.origin == o
  | none => true

/-- The subject guard
`if (paymentId && incomingPaymentId && incomingPaymentId !== paymentId) return` —
only rejects when both ids are present and differ. -/
def subjectOk (sessionId : Option String) (m : Msg) : Bool :=
  match sessionId, m.paymentId with
  | some p, some q => q == p
  | _, _ => true

/-- The dedup key `` `status-${incomingPaymentId ?? paymentId}` ``
(string interpolation of `undefined` when both are absent). -/
def msgKey (sessionId : Option String) (m : Msg) : String :=
  "status-" ++
    (match m.paymentId with
     | some q => q
     | none => match sessionId with
       | some p => p
       | none => "undefined")

/-- `incomingPaymentId ?? paymentId`, the argument passed to
`onApproved` by the message handler. -/
def jsNullish (a b : Option String) : Option String :=
  match a with
  | some x => some x
  | none => b

/-- `popupRef.current && !popupRef.current.closed`: whether a close
will actually be requested. -/
def popupOpen (s : PayState) : Bool :=
  match s.popup with
  | some p => !p.closed
  | none => false

/-- The guarded `popupRef.current.close()` call: marks the handle
closed and emits the close request; a missing or already-closed handle
is left alone. -/
def closePopupIfOpen (s : PayState) : PayState × List Out :=
  match s.popup with
  | some p =>
    if p.closed then (s, [])
    else ({ s with popup := some { closed := true } }, [Out.closePopup])
  | none => (s, [])

/-- `handleMessage` (PayButton lines 81–112): origin, protocol-tag and
subject filters, then dedup on the status key, then the
approved/failed branches (`onApproved` + popup close, or `onError`). -/
def handleMessage (allowedOrigin : Option String) (m : Msg) (s : PayState) :
    PayState × List Out :=
  if !(originOk allowedOrigin m) then (s, [])
  else if !(m.type == some "ADEYPAY_PAYMENT") then (s, [])
  else if !(subjectOk s.paymentId m) then (s, [])
  else
    let key := msgKey s.paymentId m
    if s.handled.contains key then (s, [])
    else if m.status == some "approved" then
      let s1 := { s with handled := key :: s.handled }
      let r := closePopupIfOpen s1
      (r.1, Out.approved (jsNullish m.paymentId s.paymentId) :: r.2)
    else if m.status == some "failed" then
      ({ s with handled := key :: s.handled }, [Out.error PayErr.paymentFailedPopup])
    else (s, [])

/-- The status effect (PayButton lines 119–136): the polling channel's
view of the same dedup-and-transition logic, keyed on the session's own
id. -/
def statusEffect (status : Option String) (s : PayState) : PayState × List Out :=
  match status, s.paymentId with
  | some st, some pid =>
    let key := "status-" ++ pid
    if s.handled.contains key then (s, [])
    else if st = "approved" then
      let s1 := { s with handled := key :: s.handled }
      let r := closePopupIfOpen s1
      (r.1, Out.approved (some pid) :: r.2)
    else if st = "failed" then
      ({ s with handled := key :: s.handled }, [Out.error PayErr.paymentFailed])
    else (s, [])
  | _, _ => (s, [])

/-- How `window.open` behaved: returned a handle (and `focus`
succeeded), returned `null` (blocked), or threw an error `msg`.  When
it throws, `popupRef.current` keeps its previous value; when it
returns `null`, the ref is overwritten with `null` and the handler's
own popup-blocked `Error` is thrown and caught. -/
inductive OpenResult
  | opened (p : Popup)
  | blocked
  | threw (msg : String)
deriving DecidableEq

/-- The creation effect (PayButton lines 48–77): runs once per
`paymentId` (deduped on the raw id), opens the popup — the catch
forwards to `onError` the popup-blocked `Error` when `window.open`
returned `null`, or the thrown error itself when it threw — and then
fires `onCreated` regardless. -/
def creationEffect (openRes : OpenResult) (s : PayState) : PayState × List Out :=
  match s.paymentId with
  | none => (s, [])
  | some pid =>
    if s.handled.contains pid then (s, [])
    else
      let s1 := { s with handled := pid :: s.handled }
      match openRes with
      | .opened p => ({ s1 with popup := some p }, [Out.created pid])
      | .blocked => ({ s1 with popup := none }, [Out.error PayErr.popupBlocked, Out.created pid])
      | .threw msg => (s1, [Out.error (PayErr.openThrew msg), Out.created pid])

/-- One event delivered to the component: `usePayment` assigning a new
`paymentId` (which re-runs the creation effect, with `openRes` saying
how `window.open` went), a cross-window message, or the polling channel
reporting a status for the current session. -/
inductive Event
  | assign (id : String) (openRes : OpenResult)
  | message (m : Msg)
  | poll (st : String)
deriving DecidableEq

/-- Dispatch one event against the component state. -/
def step (allowedOrigin : Option String) (s : PayState) : Event → PayState × List Out
  | .assign id openRes => creationEffect openRes { s with paymentId := some id }
  | .message m => handleMessage allowedOrigin m s
  | .poll st => statusEffect (some st) s

/-- Replay a sequence of events, concatenating the emitted actions. -/
def run (allowedOrigin : Option String) (s : PayState) : List Event → PayState × List Out
  | [] => (s, [])
  | e :: es =>
    ((run allowedOrigin (step allowedOrigin s e).1 es).1,
     (step allowedOrigin s e).2 ++ (run allowedOrigin (step allowedOrigin s e).1 es).2)

/-- Count the `onApproved` invocations in a trace. -/
def countApproved (l : List Out) : Nat :=
  (l.filter fun o => match o with | Out.approved _ => true | _ => false).length

/-- Count the `onCreated id` invocations in a trace. -/
def countCreated (id : String) (l : List Out) : Nat :=
  (l.filter fun o => match o with | Out.created i => i == id | _ => false).length

/-- Terminal callbacks: `onApproved`, or `onError` with one of the two
"Payment failed" errors (the popup-blocked error is not terminal). -/
def isTerminalOut : Out → Bool
  | Out.approved _ => true
  | Out.error PayErr.paymentFailed => true
  | Out.error PayErr.paymentFailedPopup => true
  | _ => false

/-- Count the terminal callbacks in a trace. -/
def countTerminal (l : List Out) : Nat := (l.filter isTerminalOut).length

/-- Events that only concern session id `id`: messages carrying that id
(or no id at all) and polling reports; no reassignment. -/
def eventForId (id : String) : Event → Bool
  | .message m => m.paymentId == some id || m.paymentId == none
  | .poll _ => true
  | .assign _ _ => false

/-- A terminal-success delivery for id `id` that passes the channel's
own acceptance filter: an origin-correct, protocol-tagged "approved"
message for `id`, or an "approved" polling report. -/
def approvedDelivery (allowedOrigin : Option String) (id : String) : Event → Bool
  | .message m =>
    originOk allowedOrigin m && m.type == some "ADEYPAY_PAYMENT" &&
      m.paymentId == some id && m.status == some "approved"
  | .poll st => st == "approved"
  | .assign _ _ => false

/-! ## PayButton click handler -/

/-- Observable actions of one `PayButton.handleClick` run: `busy b` is
`setLoading(b)`, `start` is the `startPayment` request, `err` is
`onError`. -/
inductive POut
  | busy (b : Bool)
  | start (amount : JsNum) (apiKey : String)
  | err (e : PayErr)
deriving DecidableEq

/-- `PayButton.handleClick` (lines 138–160) as a trace: re-entrancy
guard on `loading`, `setLoading(true)` inside the `try`, amount and
api-key validation by thrown errors routed to `onError`, the awaited
`startPayment` call, and the `finally` release. -/
def payClick (loading : Bool) (amount : JsVal) (apiKey : String)
    (startOutcome : Except String Unit) : List POut :=
  if loading then []
  else
    POut.busy true ::
    (match amount with
     | JsVal.num n =>
       if n.isNaN || n.le (JsNum.fin 0) then [POut.err .invalidAmount, POut.busy false]
       else if apiKey = "" then [POut.err .apiKeyRequired, POut.busy false]
       else
         match startOutcome with
         | .ok _ => [POut.start n apiKey, POut.busy false]
         | .error msg => [POut.start n apiKey, POut.err (.startFailed msg), POut.busy false]
     | _ => [POut.err .invalidAmount, POut.busy false])

/-- The loading flag after replaying the `setLoading` actions of a
`PayButton` click trace over an initially-false flag. -/
def pFinalBusy (t : List POut) : Bool :=
  t.foldl (fun b o => match o with | POut.busy v => v | _ => b) false

/-! ## Basic lemmas about the session model -/

theorem closePopupIfOpen_paymentId (s : PayState) :
    (closePopupIfOpen s).1.paymentId = s.paymentId := by
  unfold closePopupIfOpen
  cases hp : s.popup with
  | none => rfl
  | some p => by_cases hc : p.closed <;> simp [hc]

theorem closePopupIfOpen_handled (s : PayState) :
    (closePopupIfOpen s).1.handled = s.handled := by
  unfold closePopupIfOpen
  cases hp : s.popup with
  | none => rfl
  | some p => by_cases hc : p.closed <;> simp [hc]

theorem closePopupIfOpen_snd (s : PayState) :
    (closePopupIfOpen s).2 = [] ∨ (closePopupIfOpen s).2 = [Out.closePopup] := by
  unfold closePopupIfOpen
  cases hp : s.popup with
  | none => exact Or.inl rfl
  | some p => by_cases hc : p.closed <;> simp [hc]

theorem countApproved_append (a b : List Out) :
    countApproved (a ++ b) = countApproved a + countApproved b := by
  simp [countApproved, List.filter_append]

theorem countCreated_append (id : String) (a b : List Out) :
    countCreated id (a ++ b) = countCreated id a + countCreated id b := by
  simp [countCreated, List.filter_append]

theorem countTerminal_append (a b : List Out) :
    countTerminal (a ++ b) = countTerminal a + countTerminal b := by
  simp [countTerminal, List.filter_append]

theorem countApproved_close (s : PayState) : countApproved (closePopupIfOpen s).2 = 0 := by
  rcases closePopupIfOpen_snd s with h | h <;> rw [h] <;> rfl

theorem countApproved_cons_approved (i : Option String) (l : List Out) :
    countApproved (Out.approved i :: l) = countApproved l + 1 := by
  simp [countApproved, List.filter_cons]

theorem countTerminal_cons_approved (i : Option String) (l : List Out) :
    countTerminal (Out.approved i :: l) = countTerminal l + 1 := by
  simp [countTerminal, isTerminalOut, List.filter_cons]

theorem closePopup_mem_iff (t : PayState) :
    (Out.closePopup ∈ (closePopupIfOpen t).2) ↔ popupOpen t = true := by
  unfold closePopupIfOpen popupOpen
  cases hp : t.popup with
  | none => simp
  | some p => by_cases hc : p.closed <;> simp [hc]

theorem countTerminal_close (s : PayState) : countTerminal (closePopupIfOpen s).2 = 0 := by
  rcases closePopupIfOpen_snd s with h | h <;> rw [h] <;> rfl

theorem countCreated_close (id : String) (s : PayState) :
    countCreated id (closePopupIfOpen s).2 = 0 := by
  rcases closePopupIfOpen_snd s with h | h <;> rw [h] <;> rfl

/-- The terminal dedup key can never equal a raw payment id: it is
seven characters longer. -/
theorem statusKey_ne (idStr : String) : ("status-" ++ idStr) ≠ idStr := by
  intro h
  have hl := congrArg String.length h
  have h7 : ("status-" : String).length = 7 := rfl
  rw [String.length_append, h7] at hl
  omega

theorem statusKey_beq (idStr : String) : (("status-" ++ idStr) == idStr) = false :=
  beq_eq_false_iff_ne.mpr (statusKey_ne idStr)

theorem run_cons (ao : Option String) (s : PayState) (e : Event) (es : List Event) :
    run ao s (e :: es) =
      ((run ao (step ao s e).1 es).1, (step ao s e).2 ++ (run ao (step ao s e).1 es).2) := rfl

/-! ## Claim theorems -/

/-- C5: an incoming message whose origin differs from a derived allowed
origin, whose protocol tag is not `"ADEYPAY_PAYMENT"`, or whose payment
id differs from a present session id, causes no state mutation and no
callback; and when no allowed origin was derived, the handler is
insensitive to the message's origin. -/
theorem filtered_message_no_mutation :
    (∀ (ao : Option String) (s : PayState) (m : Msg),
      ((∃ o, ao = some o ∧ m.origin ≠ o) ∨
        m.type ≠ some "ADEYPAY_PAYMENT" ∨
        (∃ p q, s.paymentId = some p ∧ m.paymentId = some q ∧ q ≠ p)) →
      handleMessage ao m s = (s, [])) ∧
    (∀ (s : PayState) (m : Msg) (o2 : String),
      handleMessage none m s = handleMessage none { m with origin := o2 } s) := by
  constructor
  · intro ao s m h
    unfold handleMessage
    rcases h with ⟨o, hao, hne⟩ | h | ⟨p, q, hp, hq, hne⟩
    · subst hao
      simp [originOk, hne]
    · cases horig : originOk ao m
      · simp
      · simp [h]
    · cases horig : originOk ao m
      · simp
      · cases htype : (m.type == some "ADEYPAY_PAYMENT")
        · simp
        · simp [subjectOk, hp, hq, hne]
  · intro s m o2
    unfold handleMessage
    simp [originOk, subjectOk, msgKey, jsNullish]

/-- Closed witness for C5: a correctly-tagged "approved" message from a
foreign origin is dropped without touching the state. -/
theorem filtered_message_no_mutation_witness :
    handleMessage (some "https://pay.adey.lol")
      ⟨"https://evil.example", some "ADEYPAY_PAYMENT", some "p", some "approved"⟩
      ⟨some "p", [], none⟩ = (⟨some "p", [], none⟩, []) :=
  filtered_message_no_mutation.1 (some "https://pay.adey.lol")
    ⟨some "p", [], none⟩
    ⟨"https://evil.example", some "ADEYPAY_PAYMENT", some "p", some "approved"⟩
    (Or.inl ⟨"https://pay.adey.lol", rfl, by decide⟩)

/-- C10: with no session id assigned, a message that passes the origin
and protocol-tag checks and carries any payment id with status
"approved" is accepted: `onApproved` fires with the message-supplied
id and that id's status dedup key is recorded. -/
theorem message_without_session_id_accepted (ao : Option String) (s : PayState) (m : Msg)
    (mid : String)
    (hpid : s.paymentId = none)
    (horig : originOk ao m = true)
    (htype : m.type = some "ADEYPAY_PAYMENT")
    (hmid : m.paymentId = some mid)
    (hstat : m.status = some "approved")
    (hk : s.handled.contains ("status-" ++ mid) = false) :
    (handleMessage ao m s).2.head? = some (Out.approved (some mid)) ∧
    countApproved (handleMessage ao m s).2 = 1 ∧
    (handleMessage ao m s).1.handled.contains ("status-" ++ mid) = true := by
  have hm : handleMessage ao m s =
      ((closePopupIfOpen { s with handled := ("status-" ++ mid) :: s.handled }).1,
        Out.approved (some mid) ::
          (closePopupIfOpen { s with handled := ("status-" ++ mid) :: s.handled }).2) := by
    unfold handleMessage
    have hsub : subjectOk s.paymentId m = true := by simp [subjectOk, hpid]
    have hkey : msgKey s.paymentId m = "status-" ++ mid := by simp [msgKey, hmid]
    have hk2 : ("status-" ++ mid) ∉ s.handled := by simpa using hk
    simp [horig, htype, hsub, hkey, hk2, hstat, jsNullish, hmid]
  rw [hm]
  refine ⟨rfl, ?_, ?_⟩
  · rw [countApproved_cons_approved, countApproved_close]
  · rw [closePopupIfOpen_handled]
    simp [List.contains_cons]

/-- Closed witness for C10: from the initial state, an "approved"
message for `m1` is accepted and `onApproved (some m1)` fires. -/
theorem message_without_session_id_accepted_witness :
    (handleMessage none ⟨"x", some "ADEYPAY_PAYMENT", some "m1", some "approved"⟩ initState).2.head?
        = some (Out.approved (some "m1")) ∧
    countApproved (handleMessage none ⟨"x", some "ADEYPAY_PAYMENT", some "m1", some "approved"⟩
        initState).2 = 1 ∧
    (handleMessage none ⟨"x", some "ADEYPAY_PAYMENT", some "m1", some "approved"⟩
        initState).1.handled.contains ("status-" ++ "m1") = true :=
  message_without_session_id_accepted none initState
    ⟨"x", some "ADEYPAY_PAYMENT", some "m1", some "approved"⟩ "m1"
    rfl rfl rfl rfl rfl (by decide)

/-- C6 counterexample: when `window.open` itself throws (here a
`"SecurityError"`), `onError` receives the thrown error forwarded
as-is, not the popup-blocked `Error` the claim names — while the rest
of the claimed behaviour (onCreated still fires, a later approved still
fires onApproved) does hold on that same trace. -/
theorem thrown_open_error_forwarded :
    (run none initState
      [Event.assign "p" (OpenResult.threw "SecurityError"), Event.poll "approved"]).2 =
      [Out.error (PayErr.openThrew "SecurityError"), Out.created "p",
       Out.approved (some "p")] ∧
    Out.error PayErr.popupBlocked ∉ (run none initState
      [Event.assign "p" (OpenResult.threw "SecurityError"), Event.poll "approved"]).2 := by
  decide

/-- C6 (amended): when the popup cannot be opened, an error is reported
— the popup-blocked `Error` when `window.open` returned no handle, or
the thrown error itself when it threw — but the session is not failed:
`onCreated` still fires for the assigned id, and a later polled
"approved" for that id still fires `onApproved` exactly once (a second
delivery is absorbed). -/
theorem popup_blocked_does_not_fail_session (ao : Option String) (id : String) :
    ((run ao initState
      [Event.assign id OpenResult.blocked, Event.poll "approved", Event.poll "approved"]).2 =
      [Out.error PayErr.popupBlocked, Out.created id, Out.approved (some id)]) ∧
    (∀ msg : String, (run ao initState
      [Event.assign id (OpenResult.threw msg), Event.poll "approved",
       Event.poll "approved"]).2 =
      [Out.error (PayErr.openThrew msg), Out.created id, Out.approved (some id)]) := by
  constructor
  · simp [run, step, creationEffect, statusEffect, initState, closePopupIfOpen,
      List.contains_cons, statusKey_ne id]
  · intro msg
    simp [run, step, creationEffect, statusEffect, initState, closePopupIfOpen,
      List.contains_cons, statusKey_ne id]

/-- C7 counterexample: an accepted terminal-failure event on an open
session (popup handle present and not closed) fires the error callback
but does not request popup closure — the handle is left open and no
close action is emitted, contradicting "popup closure is requested for
both terminal outcomes". -/
theorem failed_event_leaves_popup_open :
    (statusEffect (some "failed") ⟨some "p", [], some ⟨false⟩⟩) =
      (⟨some "p", ["status-p"], some ⟨false⟩⟩, [Out.error PayErr.paymentFailed]) ∧
    Out.closePopup ∉ (statusEffect (some "failed") ⟨some "p", [], some ⟨false⟩⟩).2 := by
  decide

/-- C7 (amended): for every accepted terminal event on an open session,
the corresponding callback (`onApproved` or `onError`) fires exactly
once, on both channels; popup closure is requested only for the
Approved outcome (and exactly when a handle is present and not already
closed) — on Failed the popup is left untouched. -/
theorem accepted_terminal_event_effects (ao : Option String) (id : String) (s : PayState)
    (hpid : s.paymentId = some id)
    (hk : s.handled.contains ("status-" ++ id) = false) :
    (countTerminal (statusEffect (some "approved") s).2 = 1 ∧
      ((Out.closePopup ∈ (statusEffect (some "approved") s).2) ↔ popupOpen s = true)) ∧
    ((statusEffect (some "failed") s).2 = [Out.error PayErr.paymentFailed] ∧
      (statusEffect (some "failed") s).1.popup = s.popup) ∧
    (∀ m : Msg, originOk ao m = true → m.type = some "ADEYPAY_PAYMENT" →
      m.paymentId = some id →
      ((m.status = some "approved" →
        countTerminal (handleMessage ao m s).2 = 1 ∧
          ((Out.closePopup ∈ (handleMessage ao m s).2) ↔ popupOpen s = true)) ∧
       (m.status = some "failed" →
        (handleMessage ao m s).2 = [Out.error PayErr.paymentFailedPopup] ∧
          (handleMessage ao m s).1.popup = s.popup))) := by
  have hk2 : ("status-" ++ id) ∉ s.handled := by simpa using hk
  have hpop : popupOpen { s with handled := ("status-" ++ id) :: s.handled } = popupOpen s := rfl
  refine ⟨?_, ?_, ?_⟩
  · have ha : statusEffect (some "approved") s =
        ((closePopupIfOpen { s with handled := ("status-" ++ id) :: s.handled }).1,
          Out.approved (some id) ::
            (closePopupIfOpen { s with handled := ("status-" ++ id) :: s.handled }).2) := by
      simp [statusEffect, hpid, hk2]
    rw [ha]
    constructor
    · rw [countTerminal_cons_approved, countTerminal_close]
    · simp only [List.mem_cons]
      rw [closePopup_mem_iff, hpop]
      simp
  · have hf : statusEffect (some "failed") s =
        ({ s with handled := ("status-" ++ id) :: s.handled },
          [Out.error PayErr.paymentFailed]) := by
      simp [statusEffect, hpid, hk2]
    rw [hf]
    exact ⟨rfl, rfl⟩
  · intro m horig htype hmid
    have hsub : subjectOk s.paymentId m = true := by simp [subjectOk, hpid, hmid]
    have hkey : msgKey s.paymentId m = "status-" ++ id := by simp [msgKey, hmid]
    constructor
    · intro hstat
      have hm : handleMessage ao m s =
          ((closePopupIfOpen { s with handled := ("status-" ++ id) :: s.handled }).1,
            Out.approved (some id) ::
              (closePopupIfOpen { s with handled := ("status-" ++ id) :: s.handled }).2) := by
        unfold handleMessage
        simp [horig, htype, hsub, hkey, hk2, hstat, jsNullish, hmid]
      rw [hm]
      constructor
      · rw [countTerminal_cons_approved, countTerminal_close]
      · simp only [List.mem_cons]
        rw [closePopup_mem_iff, hpop]
        simp
    · intro hstat
      have hm : handleMessage ao m s =
          ({ s with handled := ("status-" ++ id) :: s.handled },
            [Out.error PayErr.paymentFailedPopup]) := by
        unfold handleMessage
        simp [horig, htype, hsub, hkey, hk2, hstat]
      rw [hm]
      exact ⟨rfl, rfl⟩

/-- Closed witness for the amended C7: on a session for `"p"` with an
open popup, an accepted polled "approved" fires exactly one terminal
callback. -/
theorem accepted_terminal_event_effects_witness :
    countTerminal (statusEffect (some "approved")
      ⟨some "p", [], some (⟨false⟩ : Popup)⟩).2 = 1 :=
  (accepted_terminal_event_effects none "p" ⟨some "p", [], some ⟨false⟩⟩ rfl (by decide)).1.1

/-! ## Exactly-once delivery of the approval (C1) -/

/-- Once the terminal dedup key for `id` is recorded, any further
approved delivery for `id` — through either channel — is a no-op. -/
theorem approved_absorbed_step (ao : Option String) (id : String) (s : PayState) (e : Event)
    (hpid : s.paymentId = some id)
    (hk : s.handled.contains ("status-" ++ id) = true)
    (he : approvedDelivery ao id e = true) :
    step ao s e = (s, []) := by
  have hkmem : ("status-" ++ id) ∈ s.handled := by simpa using hk
  cases e with
  | assign i r => simp [approvedDelivery] at he
  | poll st =>
    have hst : st = "approved" := by simpa [approvedDelivery] using he
    subst hst
    simp [step, statusEffect, hpid, hkmem]
  | message m =>
    simp only [approvedDelivery, Bool.and_eq_true, beq_iff_eq] at he
    obtain ⟨⟨⟨horig, htype⟩, hmid⟩, hstat⟩ := he
    have hsub : subjectOk s.paymentId m = true := by simp [subjectOk, hpid, hmid]
    have hkey : msgKey s.paymentId m = "status-" ++ id := by simp [msgKey, hmid]
    simp [step, handleMessage, horig, htype, hsub, hkey, hkmem]

/-- Replaying only absorbed approved deliveries changes nothing and
emits nothing. -/
theorem run_absorbed (ao : Option String) (id : String) (s : PayState) (evs : List Event)
    (hpid : s.paymentId = some id)
    (hk : s.handled.contains ("status-" ++ id) = true)
    (hall : ∀ e ∈ evs, approvedDelivery ao id e = true) :
    run ao s evs = (s, []) := by
  induction evs with
  | nil => rfl
  | cons e es ih =>
    have hstep := approved_absorbed_step ao id s e hpid hk (hall e (by simp))
    rw [run_cons, hstep]
    simp [ih (fun x hx => hall x (by simp [hx]))]

/-- The first accepted approved delivery fires `onApproved` exactly
once, keeps the session id, and records the terminal dedup key. -/
theorem approved_first_step (ao : Option String) (id : String) (s : PayState) (e : Event)
    (hpid : s.paymentId = some id)
    (hk : s.handled.contains ("status-" ++ id) = false)
    (he : approvedDelivery ao id e = true) :
    countApproved (step ao s e).2 = 1 ∧
    (step ao s e).1.paymentId = some id ∧
    (step ao s e).1.handled.contains ("status-" ++ id) = true := by
  have hk2 : ("status-" ++ id) ∉ s.handled := by simpa using hk
  cases e with
  | assign i r => simp [approvedDelivery] at he
  | poll st =>
    have hst : st = "approved" := by simpa [approvedDelivery] using he
    subst hst
    have ha : statusEffect (some "approved") s =
        ((closePopupIfOpen { s with handled := ("status-" ++ id) :: s.handled }).1,
          Out.approved (some id) ::
            (closePopupIfOpen { s with handled := ("status-" ++ id) :: s.handled }).2) := by
      simp [statusEffect, hpid, hk2]
    refine ⟨?_, ?_, ?_⟩ <;> simp only [step, ha]
    · rw [countApproved_cons_approved, countApproved_close]
    · rw [closePopupIfOpen_paymentId]
      exact hpid
    · rw [closePopupIfOpen_handled]
      simp [List.contains_cons]
  | message m =>
    simp only [approvedDelivery, Bool.and_eq_true, beq_iff_eq] at he
    obtain ⟨⟨⟨horig, htype⟩, hmid⟩, hstat⟩ := he
    have hsub : subjectOk s.paymentId m = true := by simp [subjectOk, hpid, hmid]
    have hkey : msgKey s.paymentId m = "status-" ++ id := by simp [msgKey, hmid]
    have hm : handleMessage ao m s =
        ((closePopupIfOpen { s with handled := ("status-" ++ id) :: s.handled }).1,
          Out.approved (some id) ::
            (closePopupIfOpen { s with handled := ("status-" ++ id) :: s.handled }).2) := by
      unfold handleMessage
      simp [horig, htype, hsub, hkey, hk2, hstat, jsNullish, hmid]
    refine ⟨?_, ?_, ?_⟩ <;> simp only [step, hm]
    · rw [countApproved_cons_approved, countApproved_close]
    · rw [closePopupIfOpen_paymentId]
      exact hpid
    · rw [closePopupIfOpen_handled]
      simp [List.contains_cons]

/-- C1: on a session whose id has been assigned and not yet resolved,
any nonempty sequence of terminal-success deliveries for that id — in
any order, through the message channel, the polling channel, or both —
produces exactly one `onApproved` invocation; every delivery after the
first accepted one is absorbed. -/
theorem approved_fires_exactly_once (ao : Option String) (id : String) (s : PayState)
    (evs : List Event)
    (hpid : s.paymentId = some id)
    (hk : s.handled.contains ("status-" ++ id) = false)
    (hne : evs ≠ [])
    (hall : ∀ e ∈ evs, approvedDelivery ao id e = true) :
    countApproved (run ao s evs).2 = 1 := by
  cases evs with
  | nil => exact absurd rfl hne
  | cons e es =>
    obtain ⟨h1, h2, h3⟩ := approved_first_step ao id s e hpid hk (hall e (by simp))
    have habs := run_absorbed ao id (step ao s e).1 es h2 h3
      (fun x hx => hall x (by simp [hx]))
    rw [run_cons]
    simp only [habs, countApproved_append, h1]
    rfl

/-- Closed witness for C1: a session for `"p"` receiving the same
approved event through the message channel and then the polling channel
fires `onApproved` exactly once. -/
theorem approved_fires_exactly_once_witness :
    countApproved (run none ⟨some "p", [], none⟩
      [Event.message ⟨"x", some "ADEYPAY_PAYMENT", some "p", some "approved"⟩,
       Event.poll "approved"]).2 = 1 :=
  approved_fires_exactly_once none "p" ⟨some "p", [], none⟩
    [Event.message ⟨"x", some "ADEYPAY_PAYMENT", some "p", some "approved"⟩,
     Event.poll "approved"]
    rfl (by decide) (by decide) (by decide)

/-! ## At-most-once callbacks (C2) -/

/-- Case analysis of the message handler: either it is a no-op, or the
dedup key was fresh and it took exactly one of the two terminal
branches. -/
theorem handleMessage_cases (ao : Option String) (m : Msg) (s : PayState) :
    handleMessage ao m s = (s, []) ∨
    (s.handled.contains (msgKey s.paymentId m) = false ∧
      ((m.status = some "approved" ∧
        handleMessage ao m s =
          ((closePopupIfOpen { s with handled := msgKey s.paymentId m :: s.handled }).1,
            Out.approved (jsNullish m.paymentId s.paymentId) ::
              (closePopupIfOpen { s with handled := msgKey s.paymentId m :: s.handled }).2)) ∨
       (m.status = some "failed" ∧
        handleMessage ao m s =
          ({ s with handled := msgKey s.paymentId m :: s.handled },
            [Out.error PayErr.paymentFailedPopup])))) := by
  rcases Bool.eq_false_or_eq_true (originOk ao m) with h1 | h1
  · rcases Bool.eq_false_or_eq_true (m.type == some "ADEYPAY_PAYMENT") with h2 | h2
    · rcases Bool.eq_false_or_eq_true (subjectOk s.paymentId m) with h3 | h3
      · rcases Bool.eq_false_or_eq_true (s.handled.contains (msgKey s.paymentId m)) with h4 | h4
        · have h4m : msgKey s.paymentId m ∈ s.handled := by simpa using h4
          left
          simp [handleMessage, h1, h2, h3, h4m]
        · have h4m : msgKey s.paymentId m ∉ s.handled := by simpa using h4
          rcases Bool.eq_false_or_eq_true (m.status == some "approved") with h5 | h5
          · exact Or.inr ⟨h4, Or.inl ⟨by simpa using h5,
              by simp [handleMessage, h1, h2, h3, h4m, h5, jsNullish]⟩⟩
          · rcases Bool.eq_false_or_eq_true (m.status == some "failed") with h6 | h6
            · exact Or.inr ⟨h4, Or.inr ⟨by simpa using h6,
                by simp [handleMessage, h1, h2, h3, h4m, h5, h6]⟩⟩
            · left
              simp [handleMessage, h1, h2, h3, h4m, h5, h6]
      · left
        simp [handleMessage, h1, h2, h3]
    · left
      simp [handleMessage, h1, h2]
  · left
    simp [handleMessage, h1]

/-- Case analysis of the status effect, for a session with an assigned
id. -/
theorem statusEffect_cases (st : String) (s : PayState) (id : String)
    (hpid : s.paymentId = some id) :
    statusEffect (some st) s = (s, []) ∨
    (s.handled.contains ("status-" ++ id) = false ∧
      ((st = "approved" ∧
        statusEffect (some st) s =
          ((closePopupIfOpen { s with handled := ("status-" ++ id) :: s.handled }).1,
            Out.approved (some id) ::
              (closePopupIfOpen { s with handled := ("status-" ++ id) :: s.handled }).2)) ∨
       (st = "failed" ∧
        statusEffect (some st) s =
          ({ s with handled := ("status-" ++ id) :: s.handled },
            [Out.error PayErr.paymentFailed])))) := by
  rcases Bool.eq_false_or_eq_true (s.handled.contains ("status-" ++ id)) with h4 | h4
  · have h4m : ("status-" ++ id) ∈ s.handled := by simpa using h4
    left
    simp [statusEffect, hpid, h4m]
  · have h4m : ("status-" ++ id) ∉ s.handled := by simpa using h4
    by_cases h5 : st = "approved"
    · exact Or.inr ⟨h4, Or.inl ⟨h5, by simp [statusEffect, hpid, h4m, h5]⟩⟩
    · by_cases h6 : st = "failed"
      · exact Or.inr ⟨h4, Or.inr ⟨h6, by simp [statusEffect, hpid, h4m, h5, h6]⟩⟩
      · left
        simp [statusEffect, hpid, h4m, h5, h6]

/-- Case analysis of the creation effect. -/
theorem creationEffect_cases (r : OpenResult) (s : PayState) :
    creationEffect r s = (s, []) ∨
    (∃ pid, s.paymentId = some pid ∧ s.handled.contains pid = false ∧
      (creationEffect r s).1.paymentId = some pid ∧
      (creationEffect r s).1.handled = pid :: s.handled ∧
      ((creationEffect r s).2 = [Out.created pid] ∨
       ∃ e, (creationEffect r s).2 = [Out.error e, Out.created pid])) := by
  cases hp : s.paymentId with
  | none =>
    left
    simp [creationEffect, hp]
  | some pid =>
    rcases Bool.eq_false_or_eq_true (s.handled.contains pid) with h4 | h4
    · have h4m : pid ∈ s.handled := by simpa using h4
      left
      simp [creationEffect, hp, h4m]
    · have h4m : pid ∉ s.handled := by simpa using h4
      refine Or.inr ⟨pid, rfl, h4, ?_, ?_, ?_⟩ <;>
        cases r <;> simp [creationEffect, hp, h4m]

theorem countCreated_cons_approved (id : String) (i : Option String) (l : List Out) :
    countCreated id (Out.approved i :: l) = countCreated id l := by
  simp [countCreated, List.filter_cons]

/-- The handled-key set only grows: no step ever removes a dedup key. -/
theorem step_handled_mono (ao : Option String) (s : PayState) (e : Event) (x : String)
    (hx : x ∈ s.handled) : x ∈ (step ao s e).1.handled := by
  cases e with
  | assign i r =>
    rcases creationEffect_cases r { s with paymentId := some i } with h | ⟨pid, _, _, _, hh, _⟩
    · simp only [step]
      rw [h]
      exact hx
    · simp only [step]
      rw [hh]
      exact List.mem_cons_of_mem _ hx
  | message m =>
    rcases handleMessage_cases ao m s with h | ⟨_, ⟨_, h⟩ | ⟨_, h⟩⟩
    · simp only [step]
      rw [h]
      exact hx
    · simp only [step]
      rw [h, closePopupIfOpen_handled]
      exact List.mem_cons_of_mem _ hx
    · simp only [step]
      rw [h]
      exact List.mem_cons_of_mem _ hx
  | poll st =>
    cases hp : s.paymentId with
    | none =>
      simp only [step, statusEffect, hp]
      exact hx
    | some pid =>
      rcases statusEffect_cases st s pid hp with h | ⟨_, ⟨_, h⟩ | ⟨_, h⟩⟩
      · simp only [step]
        rw [h]
        exact hx
      · simp only [step]
        rw [h, closePopupIfOpen_handled]
        exact List.mem_cons_of_mem _ hx
      · simp only [step]
        rw [h]
        exact List.mem_cons_of_mem _ hx

/-- One step fires `onCreated id` at most once, only when `id` was not
yet handled, and records `id` when it does. -/
theorem step_created (ao : Option String) (s : PayState) (e : Event) (id : String) :
    countCreated id (step ao s e).2 = 0 ∨
    (s.handled.contains id = false ∧ countCreated id (step ao s e).2 = 1 ∧
      id ∈ (step ao s e).1.handled) := by
  cases e with
  | message m =>
    left
    rcases handleMessage_cases ao m s with h | ⟨_, ⟨_, h⟩ | ⟨_, h⟩⟩ <;> simp only [step] <;> rw [h]
    · rfl
    · rw [countCreated_cons_approved, countCreated_close]
    · rfl
  | poll st =>
    left
    cases hp : s.paymentId with
    | none => simp [step, statusEffect, hp, countCreated]
    | some pid =>
      rcases statusEffect_cases st s pid hp with h | ⟨_, ⟨_, h⟩ | ⟨_, h⟩⟩ <;>
        simp only [step] <;> rw [h]
      · rfl
      · rw [countCreated_cons_approved, countCreated_close]
      · rfl
  | assign i r =>
    rcases creationEffect_cases r { s with paymentId := some i } with h | ⟨pid, _, hc, _, hh, hout⟩
    · left
      simp only [step]
      rw [h]
      rfl
    · by_cases hpi : pid = id
      · subst hpi
        right
        refine ⟨hc, ?_, ?_⟩
        · rcases hout with ho | ⟨e2, ho⟩ <;> simp only [step] <;> rw [ho] <;>
            simp [countCreated, List.filter_cons]
        · simp only [step]
          rw [hh]
          exact List.mem_cons_self _ _
      · left
        rcases hout with ho | ⟨e2, ho⟩ <;> simp only [step] <;> rw [ho] <;>
          simp [countCreated, List.filter_cons, hpi]

/-- Bound on `onCreated id` over any replay: zero once `id` is handled,
at most one otherwise. -/
theorem run_created_bound (ao : Option String) (id : String) (evs : List Event) :
    ∀ s : PayState,
      countCreated id (run ao s evs).2 ≤ (if s.handled.contains id then 0 else 1) := by
  induction evs with
  | nil =>
    intro s
    simp [run, countCreated]
  | cons e es ih =>
    intro s
    have hrest := ih (step ao s e).1
    rw [run_cons]
    simp only
    rw [countCreated_append]
    rcases step_created ao s e id with h0 | ⟨hf, h1, hmem⟩
    · rw [h0]
      rcases Bool.eq_false_or_eq_true (s.handled.contains id) with hsc | hsc
      · have hstm : id ∈ (step ao s e).1.handled :=
          step_handled_mono ao s e id (by simpa using hsc)
        have hz : countCreated id (run ao (step ao s e).1 es).2 ≤ 0 := by
          simpa [hstm] using hrest
        have hscm : id ∈ s.handled := by simpa using hsc
        simp [hscm]
        omega
      · have hscm : id ∉ s.handled := by simpa using hsc
        have hone : countCreated id (run ao (step ao s e).1 es).2 ≤ 1 :=
          le_trans hrest (by split <;> omega)
        simp [hscm]
        omega
    · have hz : countCreated id (run ao (step ao s e).1 es).2 ≤ 0 := by
        simpa [hmem] using hrest
      have hfm : id ∉ s.handled := by simpa using hf
      simp [h1, hfm]
      omega

/-- One step on a session for `id`, fed only events for `id`, keeps the
session id, and fires at most one terminal callback — only when the
terminal key was fresh, recording it. -/
theorem step_terminal (ao : Option String) (s : PayState) (e : Event) (id : String)
    (hpid : s.paymentId = some id) (he : eventForId id e = true) :
    (step ao s e).1.paymentId = some id ∧
    (countTerminal (step ao s e).2 = 0 ∨
      (s.handled.contains ("status-" ++ id) = false ∧ countTerminal (step ao s e).2 = 1 ∧
        ("status-" ++ id) ∈ (step ao s e).1.handled)) := by
  cases e with
  | assign i r => simp [eventForId] at he
  | poll st =>
    rcases statusEffect_cases st s id hpid with h | ⟨hc, ⟨_, h⟩ | ⟨_, h⟩⟩
    · constructor
      · simp only [step]
        rw [h]
        exact hpid
      · left
        simp only [step]
        rw [h]
        rfl
    · refine ⟨?_, Or.inr ⟨hc, ?_, ?_⟩⟩ <;> simp only [step] <;> rw [h]
      · rw [closePopupIfOpen_paymentId]
        exact hpid
      · rw [countTerminal_cons_approved, countTerminal_close]
      · rw [closePopupIfOpen_handled]
        exact List.mem_cons_self _ _
    · refine ⟨?_, Or.inr ⟨hc, ?_, ?_⟩⟩ <;> simp only [step] <;> rw [h]
      · exact hpid
      · rfl
      · exact List.mem_cons_self _ _
  | message m =>
    have hkey : msgKey s.paymentId m = "status-" ++ id := by
      simp only [eventForId, Bool.or_eq_true, beq_iff_eq] at he
      rcases he with hm | hm
      · simp [msgKey, hm]
      · simp [msgKey, hm, hpid]
    rcases handleMessage_cases ao m s with h | ⟨hc, ⟨_, h⟩ | ⟨_, h⟩⟩
    · constructor
      · simp only [step]
        rw [h]
        exact hpid
      · left
        simp only [step]
        rw [h]
        rfl
    · rw [hkey] at hc h
      refine ⟨?_, Or.inr ⟨hc, ?_, ?_⟩⟩ <;> simp only [step] <;> rw [h]
      · rw [closePopupIfOpen_paymentId]
        exact hpid
      · rw [countTerminal_cons_approved, countTerminal_close]
      · rw [closePopupIfOpen_handled]
        exact List.mem_cons_self _ _
    · rw [hkey] at hc h
      refine ⟨?_, Or.inr ⟨hc, ?_, ?_⟩⟩ <;> simp only [step] <;> rw [h]
      · exact hpid
      · rfl
      · exact List.mem_cons_self _ _

/-- Bound on terminal callbacks over any replay of events for `id`. -/
theorem run_terminal_bound (ao : Option String) (id : String) (evs : List Event) :
    ∀ s : PayState, s.paymentId = some id →
      (∀ e ∈ evs, eventForId id e = true) →
      countTerminal (run ao s evs).2 ≤
        (if s.handled.contains ("status-" ++ id) then 0 else 1) := by
  induction evs with
  | nil =>
    intro s _ _
    simp [run, countTerminal]
  | cons e es ih =>
    intro s hpid hall
    obtain ⟨hpid2, hcnt⟩ := step_terminal ao s e id hpid (hall e (by simp))
    have hrest := ih (step ao s e).1 hpid2 (fun x hx => hall x (by simp [hx]))
    rw [run_cons]
    simp only
    rw [countTerminal_append]
    rcases hcnt with h0 | ⟨hf, h1, hmem⟩
    · rw [h0]
      rcases Bool.eq_false_or_eq_true (s.handled.contains ("status-" ++ id)) with hsc | hsc
      · have hstm : ("status-" ++ id) ∈ (step ao s e).1.handled :=
          step_handled_mono ao s e _ (by simpa using hsc)
        have hz : countTerminal (run ao (step ao s e).1 es).2 ≤ 0 := by
          simpa [hstm] using hrest
        have hscm : ("status-" ++ id) ∈ s.handled := by simpa using hsc
        simp [hscm]
        omega
      · have hscm : ("status-" ++ id) ∉ s.handled := by simpa using hsc
        have hone : countTerminal (run ao (step ao s e).1 es).2 ≤ 1 :=
          le_trans hrest (by split <;> omega)
        simp [hscm]
        omega
    · have hz : countTerminal (run ao (step ao s e).1 es).2 ≤ 0 := by
        simpa [hmem] using hrest
      have hfm : ("status-" ++ id) ∉ s.handled := by simpa using hf
      simp [h1, hfm]
      omega

/-- C2: over any event replay from the initial state, `onCreated` fires
at most once per assigned payment id; and on a session for `id`, over
any sequence of message-channel and polling-channel events for that id,
at most one terminal callback fires in total — so `onApproved` and the
terminal `onError` are mutually exclusive and each fires at most
once. -/
theorem callbacks_at_most_once :
    (∀ (ao : Option String) (id : String) (evs : List Event),
      countCreated id (run ao initState evs).2 ≤ 1) ∧
    (∀ (ao : Option String) (id : String) (s : PayState) (evs : List Event),
      s.paymentId = some id → (∀ e ∈ evs, eventForId id e = true) →
      countTerminal (run ao s evs).2 ≤ 1) := by
  constructor
  · intro ao id evs
    have h := run_created_bound ao id evs initState
    simpa [initState] using h
  · intro ao id s evs hpid hall
    exact le_trans (run_terminal_bound ao id evs s hpid hall) (by split <;> omega)

/-- Closed witness for C2: an approved poll followed by a failed poll
on the same session produces at most one terminal callback. -/
theorem callbacks_at_most_once_witness :
    countTerminal (run none ⟨some "p", [], none⟩
      [Event.poll "approved", Event.poll "failed"]).2 ≤ 1 :=
  callbacks_at_most_once.2 none "p" ⟨some "p", [], none⟩
    [Event.poll "approved", Event.poll "failed"] rfl (by decide)

/-! ## Withdraw success path (C4) and loading release (C8) -/

/-- C4: when the create call resolves, the identifier is extracted
accepting either the `payoutId` or the `id` field; if no identifier is
present, only the no-identifier error fires; otherwise `onCreated`
fires first and `onApproved` second, synchronously, each exactly
once. -/
theorem withdraw_success_sequence (gp : Option (Option WPayload)) (aProp : Option JsNum)
    (eProp : Option String) (minA : JsNum) (maxA : Option JsNum) (now : Nat) (rand : String)
    (res : Option CreateRes) (a : JsNum) (email : String)
    (hv : validateWithdraw gp aProp eProp minA maxA = WResult.ok a email) :
    ((extractId res).truthy = true →
      withdrawClick false false gp aProp eProp minA maxA now rand (Except.ok res) =
        [WOut.busy true, WOut.call a email (genKey now rand),
         WOut.created (extractId res) a, WOut.approved (extractId res) a, WOut.busy false]) ∧
    ((extractId res).truthy = false →
      withdrawClick false false gp aProp eProp minA maxA now rand (Except.ok res) =
        [WOut.busy true, WOut.call a email (genKey now rand),
         WOut.err WErr.noIdentifier, WOut.busy false]) ∧
    (∀ v : JsVal, v.truthy = true →
      extractId (some ⟨v, JsVal.undef⟩) = v ∧ extractId (some ⟨JsVal.undef, v⟩) = v) := by
  refine ⟨?_, ?_, ?_⟩
  · intro ht
    simp [withdrawClick, hv, ht]
  · intro ht
    simp [withdrawClick, hv, ht]
  · intro v hv2
    constructor <;>
      simp [extractId, hv2, show JsVal.truthy JsVal.undef = false from rfl]

/-- Closed witness for C4: the spec scenario — amount 10, recipient
a@b.com, create resolving with field `id = "p_1"` — fires
`onCreated("p_1", 10)` then `onApproved("p_1", 10)`. -/
theorem withdraw_success_sequence_witness :
    withdrawClick false false (some (some ⟨JsVal.num (JsNum.fin 10), JsVal.str "a@b.com"⟩))
        none none (JsNum.fin 5) none 7 "r" (Except.ok (some ⟨JsVal.undef, JsVal.str "p_1"⟩)) =
      [WOut.busy true, WOut.call (JsNum.fin 10) "a@b.com" (genKey 7 "r"),
       WOut.created (JsVal.str "p_1") (JsNum.fin 10),
       WOut.approved (JsVal.str "p_1") (JsNum.fin 10), WOut.busy false] :=
  (withdraw_success_sequence (some (some ⟨JsVal.num (JsNum.fin 10), JsVal.str "a@b.com"⟩))
    none none (JsNum.fin 5) none 7 "r" (some ⟨JsVal.undef, JsVal.str "p_1"⟩)
    (JsNum.fin 10) "a@b.com" (by decide)).1 (by decide)

/-- C8: both click handlers, entered with the loading flag clear,
finish with the loading flag clear on every exit path — validation
rejection, rejected create promise, missing identifier, and success. -/
theorem loading_released_on_all_paths :
    (∀ (disabled : Bool) (gp : Option (Option WPayload)) (aProp : Option JsNum)
        (eProp : Option String) (minA : JsNum) (maxA : Option JsNum) (now : Nat) (rand : String)
        (co : Except String (Option CreateRes)),
      wFinalBusy (withdrawClick false disabled gp aProp eProp minA maxA now rand co) = false) ∧
    (∀ (amount : JsVal) (apiKey : String) (so : Except String Unit),
      pFinalBusy (payClick false amount apiKey so) = false) := by
  constructor
  · intro disabled gp aProp eProp minA maxA now rand co
    cases disabled
    · cases hv : validateWithdraw gp aProp eProp minA maxA with
      | rejected e => simp [withdrawClick, hv, wFinalBusy]
      | ok a email =>
        cases co with
        | error msg => simp [withdrawClick, hv, wFinalBusy]
        | ok res =>
          rcases Bool.eq_false_or_eq_true (extractId res).truthy with ht | ht <;>
            simp [withdrawClick, hv, ht, wFinalBusy]
    · simp [withdrawClick, wFinalBusy]
  · intro amount apiKey so
    cases amount with
    | num n =>
      cases hn : (n.isNaN || n.le (JsNum.fin 0))
      · by_cases hk : apiKey = ""
        · simp [payClick, hn, hk, pFinalBusy]
        · cases so <;> simp [payClick, hn, hk, pFinalBusy]
      · simp [payClick, hn, pFinalBusy]
    | undef => rfl
    | str t => rfl

/-! ## Validation order (C3) -/

/-- On non-`NaN` operands the JS strict and non-strict comparisons are
each other's negations with the arguments swapped. -/
theorem jsnum_lt_eq_not_le (a b : JsNum) (ha : a.isNaN = false) (hb : b.isNaN = false) :
    JsNum.lt a b = !(JsNum.le b a) := by
  cases a with
  | nan => simp [JsNum.isNaN] at ha
  | posInf =>
    cases b with
    | nan => simp [JsNum.isNaN] at hb
    | posInf => rfl
    | negInf => rfl
    | fin r => rfl
  | negInf =>
    cases b with
    | nan => simp [JsNum.isNaN] at hb
    | posInf => rfl
    | negInf => rfl
    | fin r => rfl
  | fin q =>
    cases b with
    | nan => simp [JsNum.isNaN] at hb
    | posInf => rfl
    | negInf => rfl
    | fin r =>
      show decide (q < r) = !decide (r ≤ q)
      rw [← decide_not]
      exact decide_eq_decide.mpr not_le.symm

/-- C3 counterexample: the claim requires the amount to be a finite
number (`Infinity` should be rejected with `InvalidAmount` and no
network call made), but the code only checks `typeof`, `isNaN` and
`<= 0`: with amount `Infinity`, no configured maximum and recipient
`"a@b.com"`, validation succeeds and the create call goes on the
wire. -/
theorem infinite_amount_passes_validation :
    validateWithdraw (some (some ⟨JsVal.num JsNum.posInf, JsVal.str "a@b.com"⟩)) none none
        (JsNum.fin 5) none = WResult.ok JsNum.posInf "a@b.com" ∧
    withdrawClick false false (some (some ⟨JsVal.num JsNum.posInf, JsVal.str "a@b.com"⟩))
        none none (JsNum.fin 5) none 7 "r" (Except.ok (some ⟨JsVal.str "p_1", JsVal.undef⟩)) =
      [WOut.busy true, WOut.call JsNum.posInf "a@b.com" (genKey 7 "r"),
       WOut.created (JsVal.str "p_1") JsNum.posInf,
       WOut.approved (JsVal.str "p_1") JsNum.posInf, WOut.busy false] := by
  constructor <;> decide

/-- C3 (amended): validation applies exactly the spec's rules in the
spec's order with first-failure short-circuit — with rule 2 weakened to
"a number, not `NaN`, and `> 0`" (finiteness is not checked) — the
first failure is reported through `onError` with no network call; and
the payment button rejects every non-numeric, `NaN` or `<= 0` amount
with `InvalidAmount` and no network call. -/
theorem validation_order_amended (gp : Option (Option WPayload)) (aProp : Option JsNum)
    (eProp : Option String) (minA : JsNum) (maxA : Option JsNum)
    (hmin : minA.isNaN = false)
    (hmax : ∀ mx, maxA = some mx → mx.isNaN = false) :
    (validateWithdraw gp aProp eProp minA maxA =
      specValidate (resolvePayload gp aProp eProp) minA maxA) ∧
    (∀ (e : WErr) (now : Nat) (rand : String) (co : Except String (Option CreateRes)),
      validateWithdraw gp aProp eProp minA maxA = WResult.rejected e →
      withdrawClick false false gp aProp eProp minA maxA now rand co = [WOut.err e]) ∧
    (∀ (amount : JsVal) (apiKey : String) (so : Except String Unit),
      ((∀ n, amount ≠ JsVal.num n) ∨
        (∃ n, amount = JsVal.num n ∧ (n.isNaN = true ∨ n.le (JsNum.fin 0) = true))) →
      payClick false amount apiKey so =
        [POut.busy true, POut.err PayErr.invalidAmount, POut.busy false]) := by
  refine ⟨?_, ?_, ?_⟩
  · have hmaxn : maxA = none ∨ ∃ mx, maxA = some mx ∧ mx.isNaN = false := by
      cases maxA with
      | none => exact Or.inl rfl
      | some mx => exact Or.inr ⟨mx, rfl, hmax mx rfl⟩
    unfold validateWithdraw specValidate
    rcases hmaxn with hmA | ⟨mx, hmA, hnan⟩
    · subst hmA
      cases hq : resolvePayload gp aProp eProp with
      | none => rfl
      | some p =>
        obtain ⟨pa, pe⟩ := p
        cases pa with
        | undef => rfl
        | str t => rfl
        | num a =>
          dsimp only
          rcases Bool.eq_false_or_eq_true a.isNaN with ha | ha
          · simp [ha]
          · have h0 : JsNum.le a (JsNum.fin 0) = !(JsNum.lt (JsNum.fin 0) a) := by
              rw [jsnum_lt_eq_not_le (JsNum.fin 0) a rfl ha, Bool.not_not]
            have hmn : JsNum.lt a minA = !(JsNum.le minA a) :=
              jsnum_lt_eq_not_le a minA ha hmin
            rw [h0, hmn]
    · subst hmA
      cases hq : resolvePayload gp aProp eProp with
      | none => rfl
      | some p =>
        obtain ⟨pa, pe⟩ := p
        cases pa with
        | undef => rfl
        | str t => rfl
        | num a =>
          dsimp only
          rcases Bool.eq_false_or_eq_true a.isNaN with ha | ha
          · simp [ha]
          · have h0 : JsNum.le a (JsNum.fin 0) = !(JsNum.lt (JsNum.fin 0) a) := by
              rw [jsnum_lt_eq_not_le (JsNum.fin 0) a rfl ha, Bool.not_not]
            have hmn : JsNum.lt a minA = !(JsNum.le minA a) :=
              jsnum_lt_eq_not_le a minA ha hmin
            have hmx2 : JsNum.lt mx a = !(JsNum.le a mx) :=
              jsnum_lt_eq_not_le mx a hnan ha
            rw [h0, hmn, hmx2]
  · intro e now rand co hv
    simp [withdrawClick, hv]
  · intro amount apiKey so h
    rcases h with hnn | ⟨n, rfl, hcase⟩
    · cases amount with
      | num n => exact absurd rfl (hnn n)
      | undef => rfl
      | str t => rfl
    · have hc : (n.isNaN || n.le (JsNum.fin 0)) = true := by
        rcases hcase with h1 | h1 <;> simp [h1]
      simp [payClick, hc]

/-- Closed witness for the amended C3: the spec scenario amount 3 with
default minimum 5 — both the code path and the spec rule list reject
with `BelowMinimum`. -/
theorem validation_order_amended_witness :
    validateWithdraw (some (some ⟨JsVal.num (JsNum.fin 3), JsVal.str "a@b.com"⟩)) none none
        (JsNum.fin 5) none =
      specValidate (resolvePayload (some (some ⟨JsVal.num (JsNum.fin 3), JsVal.str "a@b.com"⟩))
        none none) (JsNum.fin 5) none :=
  (validation_order_amended (some (some ⟨JsVal.num (JsNum.fin 3), JsVal.str "a@b.com"⟩))
    none none (JsNum.fin 5) none (by decide) (fun mx h => nomatch h)).1

/-! ## Idempotency key distinctness (C9) -/

theorem digitChar_toNat (d : Nat) (h : d < 10) : (digitChar d).toNat = 48 + d := by
  interval_cases d <;> rfl

theorem digitChar_ne_dash (d : Nat) (h : d < 10) : digitChar d ≠ '-' := by
  interval_cases d <;> decide

theorem decDigitsCore_digits (fuel : Nat) :
    ∀ n, n < fuel → ∀ c ∈ decDigitsCore fuel n, ∃ d, d < 10 ∧ c = digitChar d := by
  induction fuel with
  | zero => omega
  | succ f ih =>
    intro n hn c hc
    rw [decDigitsCore] at hc
    by_cases h10 : n < 10
    · rw [if_pos h10] at hc
      simp at hc
      exact ⟨n, h10, hc⟩
    · rw [if_neg h10] at hc
      rcases List.mem_append.mp hc with hc2 | hc2
      · exact ih (n / 10) (by omega) c hc2
      · simp at hc2
        exact ⟨n % 10, by omega, hc2⟩

theorem digitsVal_append_digit (l : List Char) (c : Char) :
    digitsVal (l ++ [c]) = 10 * digitsVal l + (c.toNat - 48) := by
  simp [digitsVal, List.foldl_append]

theorem decDigitsCore_val (fuel : Nat) :
    ∀ n, n < fuel → digitsVal (decDigitsCore fuel n) = n := by
  induction fuel with
  | zero => omega
  | succ f ih =>
    intro n hn
    rw [decDigitsCore]
    by_cases h10 : n < 10
    · rw [if_pos h10]
      simp [digitsVal, digitChar_toNat n h10]
    · rw [if_neg h10]
      rw [digitsVal_append_digit, ih (n / 10) (by omega), digitChar_toNat (n % 10) (by omega)]
      omega

theorem decDigits_val (n : Nat) : digitsVal (decDigits n) = n :=
  decDigitsCore_val (n + 1) n (Nat.lt_succ_self n)

theorem decDigits_ne_dash (n : Nat) : ∀ c ∈ decDigits n, c ≠ '-' := by
  intro c hc
  obtain ⟨d, hd, rfl⟩ := decDigitsCore_digits (n + 1) n (Nat.lt_succ_self n) c hc
  exact digitChar_ne_dash d hd

/-- Lists with no dash split uniquely at the first dash. -/
theorem append_dash_inj :
    ∀ (l1 l2 x y : List Char), ('-' : Char) ∉ l1 → ('-' : Char) ∉ l2 →
      l1 ++ '-' :: x = l2 ++ '-' :: y → l1 = l2 ∧ x = y := by
  intro l1
  induction l1 with
  | nil =>
    intro l2 x y h1 h2 h
    cases l2 with
    | nil =>
      simp only [List.nil_append] at h
      exact ⟨rfl, by injection h⟩
    | cons b bs =>
      simp only [List.nil_append, List.cons_append] at h
      injection h with hb _
      exact absurd (hb ▸ List.mem_cons_self b bs) h2
  | cons a as ih =>
    intro l2 x y h1 h2 h
    cases l2 with
    | nil =>
      simp only [List.cons_append, List.nil_append] at h
      injection h with ha _
      exact absurd (ha ▸ List.mem_cons_self a as) h1
    | cons b bs =>
      simp only [List.cons_append] at h
      injection h with hab hrest
      subst hab
      obtain ⟨hl, hx⟩ := ih bs x y (fun hm => h1 (List.mem_cons_of_mem _ hm))
        (fun hm => h2 (List.mem_cons_of_mem _ hm)) hrest
      exact ⟨by rw [hl], hx⟩

/-- C9: the idempotency key is the time-based component joined with the
random component; two creation attempts whose time or random inputs
differ generate distinct key strings. -/
theorem idempotency_keys_distinct (t1 t2 : Nat) (r1 r2 : String)
    (h : t1 ≠ t2 ∨ r1 ≠ r2) : genKey t1 r1 ≠ genKey t2 r2 := by
  intro he
  have hd := congrArg String.data he
  simp only [genKey, decRepr, String.data_append] at hd
  have hsplit : decDigits t1 ++ '-' :: r1.data = decDigits t2 ++ '-' :: r2.data := by
    have h3 : ("ui-" : String).data ++ (decDigits t1 ++ '-' :: r1.data) =
        ("ui-" : String).data ++ (decDigits t2 ++ '-' :: r2.data) := by
      simpa [List.append_assoc] using hd
    exact List.append_cancel_left h3
  obtain ⟨hts, hrs⟩ := append_dash_inj (decDigits t1) (decDigits t2) r1.data r2.data
    (fun hm => decDigits_ne_dash t1 '-' hm rfl)
    (fun hm => decDigits_ne_dash t2 '-' hm rfl) hsplit
  have ht : t1 = t2 := by
    have hv := congrArg digitsVal hts
    rw [decDigits_val, decDigits_val] at hv
    exact hv
  have hr : r1 = r2 := by
    cases r1
    cases r2
    exact congrArg String.mk hrs
  rcases h with h | h
  · exact h ht
  · exact h hr

/-- Closed witness for C9: two attempts one millisecond apart with the
same random slice produce different keys. -/
theorem idempotency_keys_distinct_witness : genKey 1 "ab" ≠ genKey 2 "ab" :=
  idempotency_keys_distinct 1 2 "ab" "ab" (Or.inl (by decide))

end AdeyPay
